import Mathlib

/-!
Verification of the wrapperauth translator (src/main.rs).

The repository is a small CLI that translates a typed command
(Auth or Clear, each carrying a client ID, a tenant ID and a list of
requested scopes) into the flat argument vector handed to the external
azureauth helper. We embed the Target struct, the Args enum, the
From Target for Vec String conversion and the translate function, and
prove the specified properties of the produced argument vector.
-/

namespace Wrapperauth

/-- The Target struct from src/main.rs: client ID, tenant ID and the
list of requested scopes (clap enforces at least one scope at parse
time; the struct itself does not). -/
structure Target where
  client : String
  tenant : String
  scopes : List String

/-- The Args enum from src/main.rs: Auth acquires a token, Clear
clears one; each variant carries a Target. -/
inductive Args where
  | auth (target : Target)
  | clear (target : Target)

/-- The From Target for Vec String implementation in src/main.rs:
start from the six fixed elements, then for each scope in order push
the flag string and the scope. -/
def Vec.fromTarget (target : Target) : List String :=
  ["--client", target.client, "--tenant", target.tenant,
   "--resource", " "] ++
    target.scopes.flatMap (fun scope => ["--scope", scope])

/-- The translate function from src/main.rs: Auth converts the target
directly; Clear converts the target and pushes a trailing element
"--clear". -/
def translate : Args → List String
  | Args.auth target => Vec.fromTarget target
  | Args.clear target => Vec.fromTarget target ++ ["--clear"]

/-- The Target carried by either Args variant. -/
def Args.target : Args → Target
  | Args.auth t => t
  | Args.clear t => t

/-- The per-scope expansion emits exactly two elements per scope. -/
theorem scope_block_length (l : List String) :
    (l.flatMap (fun scope => ["--scope", scope])).length = 2 * l.length := by
  induction l with
  | nil => rfl
  | cons s rest ih =>
      simp [List.flatMap_cons, List.length_append, List.length_cons, ih]
      omega

/-- C1: for every Command whose scopes list is s1, ..., sN with N at
least 1, the 2N elements of the output immediately after the six
fixed elements are the contiguous block
"--scope", s1, "--scope", s2, ..., "--scope", sN,
with scopes in input order. -/
theorem translate_scope_block (cmd : Args)
    (h : 1 ≤ cmd.target.scopes.length) :
    List.take (2 * cmd.target.scopes.length) (List.drop 6 (translate cmd)) =
      cmd.target.scopes.flatMap (fun scope => ["--scope", scope]) := by
  cases cmd with
  | auth t =>
      simp only [translate, Args.target, Vec.fromTarget]
      have h6 : (["--client", t.client, "--tenant", t.tenant,
          "--resource", " "] : List String).length = 6 := rfl
      rw [← h6, List.drop_left,
        List.take_of_length_le (le_of_eq (scope_block_length t.scopes))]
  | clear t =>
      simp only [translate, Args.target, Vec.fromTarget]
      rw [List.append_assoc]
      have h6 : (["--client", t.client, "--tenant", t.tenant,
          "--resource", " "] : List String).length = 6 := rfl
      rw [← h6, List.drop_left, ← scope_block_length t.scopes]
      exact List.take_left _ _

/-- Closed instance of translate_scope_block at a concrete Command. -/
theorem translate_scope_block_witness :
    List.take (2 * (Args.auth ⟨"foo", "bar", ["baz"]⟩).target.scopes.length)
        (List.drop 6 (translate (Args.auth ⟨"foo", "bar", ["baz"]⟩))) =
      (Args.auth ⟨"foo", "bar", ["baz"]⟩).target.scopes.flatMap
        (fun scope => ["--scope", scope]) :=
  translate_scope_block (Args.auth ⟨"foo", "bar", ["baz"]⟩) (by decide)

/-- C2: for every Command with non-empty scopes, the output starts
with exactly the six elements "--client", client, "--tenant", tenant,
"--resource", " " in that order. -/
theorem translate_fixed_head (cmd : Args)
    (h : cmd.target.scopes ≠ []) :
    List.take 6 (translate cmd) =
      ["--client", cmd.target.client, "--tenant", cmd.target.tenant,
       "--resource", " "] := by
  cases cmd with
  | auth t =>
      simp only [translate, Args.target, Vec.fromTarget]
      have h6 : (["--client", t.client, "--tenant", t.tenant,
          "--resource", " "] : List String).length = 6 := rfl
      rw [← h6]
      exact List.take_left _ _
  | clear t =>
      simp only [translate, Args.target, Vec.fromTarget]
      rw [List.append_assoc]
      have h6 : (["--client", t.client, "--tenant", t.tenant,
          "--resource", " "] : List String).length = 6 := rfl
      rw [← h6]
      exact List.take_left _ _

/-- Closed instance of translate_fixed_head at a concrete Command. -/
theorem translate_fixed_head_witness :
    List.take 6 (translate (Args.clear ⟨"foo", "bar", ["baz"]⟩)) =
      ["--client", "foo", "--tenant", "bar", "--resource", " "] :=
  translate_fixed_head (Args.clear ⟨"foo", "bar", ["baz"]⟩) (by decide)

/-- C3: for every Clear command with non-empty scopes, the final
element of the output is "--clear", and it sits after all the scope
pairs: dropping the six fixed elements and the 2N scope elements
leaves exactly the singleton "--clear". -/
theorem translate_clear_last (t : Target) (h : t.scopes ≠ []) :
    (translate (Args.clear t)).getLast? = some "--clear" ∧
      List.drop (6 + 2 * t.scopes.length) (translate (Args.clear t)) =
        ["--clear"] := by
  constructor
  · show (Vec.fromTarget t ++ ["--clear"]).getLast? = some "--clear"
    simp
  · show List.drop (6 + 2 * t.scopes.length)
        (Vec.fromTarget t ++ ["--clear"]) = ["--clear"]
    have hlen : (Vec.fromTarget t).length = 6 + 2 * t.scopes.length := by
      rw [Vec.fromTarget, List.length_append, scope_block_length]
      rfl
    rw [← hlen, List.drop_left]

/-- Closed instance of translate_clear_last at a concrete Target. -/
theorem translate_clear_last_witness :
    (translate (Args.clear ⟨"foo", "bar", ["baz"]⟩)).getLast? =
        some "--clear" ∧
      List.drop (6 + 2 * (["baz"] : List String).length)
          (translate (Args.clear ⟨"foo", "bar", ["baz"]⟩)) = ["--clear"] :=
  translate_clear_last ⟨"foo", "bar", ["baz"]⟩ (by decide)

/-- C4 counterexample: with arbitrary field strings allowed, an
Acquire command whose sole scope is the string "--clear" produces an
output containing the element "--clear", refuting the claim that no
element of an Acquire translation ever equals "--clear". -/
theorem translate_auth_contains_clear_cex :
    "--clear" ∈ translate (Args.auth ⟨"foo", "bar", ["--clear"]⟩) := by
  decide

/-- C4 amended: for every Acquire command with non-empty scopes whose
client, tenant and scope strings are all different from "--clear", no
element of the output equals "--clear". -/
theorem translate_auth_no_clear (t : Target) (h : t.scopes ≠ [])
    (hc : t.client ≠ "--clear") (ht : t.tenant ≠ "--clear")
    (hs : "--clear" ∉ t.scopes) :
    "--clear" ∉ translate (Args.auth t) := by
  show "--clear" ∉ Vec.fromTarget t
  rw [Vec.fromTarget]
  intro hmem
  rcases List.mem_append.mp hmem with hpre | hblk
  · simp only [List.mem_cons, List.not_mem_nil, or_false] at hpre
    rcases hpre with h1 | h1 | h1 | h1 | h1 | h1
    · exact absurd h1 (by decide)
    · exact hc h1.symm
    · exact absurd h1 (by decide)
    · exact ht h1.symm
    · exact absurd h1 (by decide)
    · exact absurd h1 (by decide)
  · rcases List.mem_flatMap.mp hblk with ⟨s, hsmem, hin⟩
    simp only [List.mem_cons, List.not_mem_nil, or_false] at hin
    rcases hin with h1 | h1
    · exact absurd h1 (by decide)
    · exact hs (h1 ▸ hsmem)

/-- Closed instance of translate_auth_no_clear at a concrete Target. -/
theorem translate_auth_no_clear_witness :
    "--clear" ∉ translate (Args.auth ⟨"foo", "bar", ["baz"]⟩) :=
  translate_auth_no_clear ⟨"foo", "bar", ["baz"]⟩ (by decide) (by decide)
    (by decide) (by decide)

/-- C5: for every Target with N scopes, N at least 1, the Auth
translation has length 6 + 2N and the Clear translation has length
7 + 2N. -/
theorem translate_length (t : Target) (h : 1 ≤ t.scopes.length) :
    (translate (Args.auth t)).length = 6 + 2 * t.scopes.length ∧
      (translate (Args.clear t)).length = 7 + 2 * t.scopes.length := by
  have hlen : (Vec.fromTarget t).length = 6 + 2 * t.scopes.length := by
    rw [Vec.fromTarget, List.length_append, scope_block_length]
    rfl
  constructor
  · exact hlen
  · show (Vec.fromTarget t ++ ["--clear"]).length = 7 + 2 * t.scopes.length
    rw [List.length_append, hlen, List.length_singleton]
    omega

/-- Closed instance of translate_length at a concrete Target. -/
theorem translate_length_witness :
    (translate (Args.auth ⟨"foo", "bar", ["baz", "quux"]⟩)).length =
        6 + 2 * (["baz", "quux"] : List String).length ∧
      (translate (Args.clear ⟨"foo", "bar", ["baz", "quux"]⟩)).length =
        7 + 2 * (["baz", "quux"] : List String).length :=
  translate_length ⟨"foo", "bar", ["baz", "quux"]⟩ (by decide)

/-- C6: the concrete scenarios from the spec: Auth on client "foo",
tenant "bar", scopes ["baz"] yields the eight-element vector, and
Clear on the same fields yields that vector with "--clear" appended
as a ninth element. -/
theorem translate_concrete_scenarios :
    translate (Args.auth ⟨"foo", "bar", ["baz"]⟩) =
        ["--client", "foo", "--tenant", "bar", "--resource", " ",
         "--scope", "baz"] ∧
      translate (Args.clear ⟨"foo", "bar", ["baz"]⟩) =
        ["--client", "foo", "--tenant", "bar", "--resource", " ",
         "--scope", "baz", "--clear"] :=
  ⟨rfl, rfl⟩

/-- C7: translate is total on Commands satisfying the non-empty-scopes
invariant: it is a Lean function, hence terminating, and for every
such Command it returns an argument vector with no failure outcome. -/
theorem translate_total (cmd : Args) (h : cmd.target.scopes ≠ []) :
    ∃ out : List String, translate cmd = out :=
  ⟨translate cmd, rfl⟩

/-- Closed instance of translate_total at a concrete Command. -/
theorem translate_total_witness :
    ∃ out : List String,
      translate (Args.auth ⟨"foo", "bar", ["baz"]⟩) = out :=
  translate_total (Args.auth ⟨"foo", "bar", ["baz"]⟩) (by decide)

/-- C8: translate is deterministic and stateless: it is a pure
function of its argument, so two invocations on equal Command values
yield identical output sequences. -/
theorem translate_deterministic (c1 c2 : Args) (h : c1 = c2) :
    translate c1 = translate c2 := by
  rw [h]

/-- Closed instance of translate_deterministic at a concrete pair. -/
theorem translate_deterministic_witness :
    translate (Args.clear ⟨"foo", "bar", ["baz"]⟩) =
      translate (Args.clear ⟨"foo", "bar", ["baz"]⟩) :=
  translate_deterministic (Args.clear ⟨"foo", "bar", ["baz"]⟩)
    (Args.clear ⟨"foo", "bar", ["baz"]⟩) rfl

/-- C9: when a Command reaches translate with an empty scopes list,
translate does not fail: Auth returns exactly the six fixed elements
and Clear returns those six elements followed by "--clear", with no
"--scope" token. -/
theorem translate_empty_scopes (t : Target) (h : t.scopes = []) :
    translate (Args.auth t) =
        ["--client", t.client, "--tenant", t.tenant, "--resource", " "] ∧
      translate (Args.clear t) =
        ["--client", t.client, "--tenant", t.tenant, "--resource", " ",
         "--clear"] := by
  constructor
  · show Vec.fromTarget t = _
    rw [Vec.fromTarget, h]
    rfl
  · show Vec.fromTarget t ++ ["--clear"] = _
    rw [Vec.fromTarget, h]
    rfl

/-- Closed instance of translate_empty_scopes at a concrete Target. -/
theorem translate_empty_scopes_witness :
    translate (Args.auth ⟨"foo", "bar", []⟩) =
        ["--client", "foo", "--tenant", "bar", "--resource", " "] ∧
      translate (Args.clear ⟨"foo", "bar", []⟩) =
        ["--client", "foo", "--tenant", "bar", "--resource", " ",
         "--clear"] :=
  translate_empty_scopes ⟨"foo", "bar", []⟩ rfl

/-- C10: for every Target, the Clear translation is exactly the Auth
translation with the single element "--clear" appended; the variants
agree everywhere else. -/
theorem translate_clear_refines_auth (t : Target) :
    translate (Args.clear t) = translate (Args.auth t) ++ ["--clear"] :=
  rfl

end Wrapperauth
